import Mathlib

/-!
Verification of the DataCollector Telegram bot (`DataCollect0r_Bot`).

This file gives a shallow embedding, in Lean 4, of the record store
(`database.py`), the classification-normalization loop (`upload_data.py`),
the intake state machine (`main.py`) and the fulfillment pipeline
(`instagram_downloader.py`), and proves or refutes the specified
properties of the record lifecycle.

External collaborators (the OpenAI classification and date-resolution
calls, the HTTP object-storage endpoint, the clock, and the filesystem)
are modelled as explicit oracle parameters / explicit state, following
the spec's contract view of them; everything the repository itself
computes is translated directly from the Python source, including the
behavior of names the source uses without defining them.
-/

namespace DataCollector

/-! ## Record store (`database.py`)

SQLite rows are embedded as structures.  `dataset` columns that
`save_data_to_db` validates as required are typed as plain values in the
stored row; `description` and `upload_status` may be NULL and are
`Option String`.  Tables carry explicit rowids (SQLite rowids survive
deletions of other rows), plus the next fresh rowid. -/

/-- A stored row of the `dataset` table (pending stage). -/
structure DataRow where
  telegram_id : Int
  username : String
  category : String
  url : String
  date : String
  description : Option String
  upload_status : Option String
  deriving Repr, DecidableEq

/-- A stored row of the `dataset_backup` table (archived stage).
`download_status` has SQL default `'not_downloaded'`; `aws_url` is the
column added on demand by `update_database_with_aws_url`. -/
structure BackupRow where
  telegram_id : Int
  username : String
  category : String
  url : String
  date : String
  description : Option String
  upload_status : String
  download_status : String
  aws_url : Option String
  deriving Repr, DecidableEq

/-- The `dataset` table: rows keyed by rowid, plus the next fresh rowid. -/
structure DatasetTable where
  rows : List (Nat × DataRow)
  nextRowId : Nat
  deriving Repr, DecidableEq

/-- The `dataset_backup` table. -/
structure BackupTable where
  rows : List (Nat × BackupRow)
  nextRowId : Nat
  deriving Repr, DecidableEq

/-- Both tables created by `init_db`. -/
structure DB where
  dataset : DatasetTable
  backup : BackupTable
  deriving Repr, DecidableEq

/-- The `data` dict passed to `save_data_to_db` (`dict.get` yields `None`
for absent keys, so every field is optional at this point). -/
structure SaveData where
  telegram_id : Option Int
  username : Option String
  category : Option String
  url : Option String
  date : Option String
  description : Option String
  upload_status : Option String
  deriving Repr, DecidableEq

/-- The `UNIQUE (telegram_id, url, category)` key of a `dataset` row. -/
def rowKey (r : DataRow) : Int × String × String :=
  (r.telegram_id, r.url, r.category)

/-- `save_data_to_db` (`database.py:57`): validates the five required
fields, then `INSERT ... ON CONFLICT (telegram_id, url, category) DO
UPDATE SET username, date, upload_status, description` from the excluded
(new) values.  The conflict clause fires against the unique constraint,
so the row hit is the one sharing the key; we update by key. -/
def save_data_to_db (d : SaveData) (t : DatasetTable) : Except String DatasetTable :=
  match d.telegram_id, d.username, d.category, d.url, d.date with
  | some tid, some un, some cat, some u, some dt =>
      let k : Int × String × String := (tid, u, cat)
      if t.rows.any (fun p => rowKey p.2 = k) then
        Except.ok { t with rows := t.rows.map (fun p =>
          if rowKey p.2 = k then
            (p.1, { p.2 with
                      username := un
                      date := dt
                      upload_status := d.upload_status
                      description := d.description })
          else p) }
      else
        Except.ok {
          rows := t.rows ++ [(t.nextRowId,
            { telegram_id := tid, username := un, category := cat,
              url := u, date := dt, description := d.description,
              upload_status := d.upload_status })]
          nextRowId := t.nextRowId + 1 }
  | _, _, _, _, _ => Except.error "Missing required field"

/-- `change_upload_status` (`database.py:142`): the `upload_status`
argument is immediately overwritten with `"uploaded"`; then (1) the
`dataset` row with the given rowid is updated to `upload_status =
'uploaded'`, (2) a backup row built from the *arguments* is inserted into
`dataset_backup` unconditionally (the table has no uniqueness
constraint), (3) the `dataset` row is deleted. -/
def change_upload_status (rowid : Nat) (telegram_id : Int) (username url category date : String)
    (description : Option String) (_upload_status : String) (db : DB) : DB :=
  let status := "uploaded"
  let ds1 := db.dataset.rows.map (fun p =>
    if p.1 = rowid then (p.1, { p.2 with upload_status := some status }) else p)
  let newBackupRow : BackupRow :=
    { telegram_id := telegram_id, username := username, category := category,
      url := url, date := date, description := description,
      upload_status := status, download_status := "not_downloaded",
      aws_url := none }
  let bk : BackupTable :=
    { rows := db.backup.rows ++ [(db.backup.nextRowId, newBackupRow)]
      nextRowId := db.backup.nextRowId + 1 }
  let ds2 := ds1.filter (fun p => p.1 ≠ rowid)
  { dataset := { db.dataset with rows := ds2 }, backup := bk }

/-- `get_download_url_data` (`database.py:167`):
`SELECT DISTINCT url, rowid FROM dataset_backup WHERE download_status =
'not_downloaded'`.  `DISTINCT` removes duplicate result tuples. -/
def get_download_url_data (t : BackupTable) : List (String × Nat) :=
  ((t.rows.filter (fun p => p.2.download_status = "not_downloaded")).map
    (fun p => (p.2.url, p.1))).dedup

/-- `change_download_status` (`database.py:184`): single-row update of
`download_status` in `dataset_backup`.  (No code in the repository calls
this function.) -/
def change_download_status (rowid : Nat) (status : String) (t : BackupTable) : BackupTable :=
  { t with rows := t.rows.map (fun p =>
      if p.1 = rowid then (p.1, { p.2 with download_status := status }) else p) }

/-! ## Fulfillment pipeline retrieval (`instagram_downloader.py`) -/

/-- The tuple shape returned by `get_distinct_urls`. -/
structure DlTuple where
  url : String
  rowid : Nat
  telegram_id : Int
  username : String
  category : String
  date : String
  description : Option String
  deriving Repr, DecidableEq

/-- `InstagramDownloader.get_distinct_urls` (`instagram_downloader.py:33`):
`SELECT DISTINCT url, rowid, telegram_id, username, category, date,
description FROM dataset_backup` — note: no `download_status` filter at
all. -/
def get_distinct_urls (t : BackupTable) : List DlTuple :=
  (t.rows.map (fun p =>
    { url := p.2.url, rowid := p.1, telegram_id := p.2.telegram_id,
      username := p.2.username, category := p.2.category,
      date := p.2.date, description := p.2.description : DlTuple })).dedup

/-! ## Classification normalizer (`upload_data.py`, `module_openai_categorizer.py`)

`categorize` is a single OpenAI call returning an arbitrary string; we
model the external capability as an oracle `f : Nat → String` giving the
result of the i-th call.  `upload_data.py` then runs

    categorized_value = categorize(category)
    while categorized_value not in CORRECT_CATEGORIES:
        categorized_value = categorize(category)

which we embed fuel-indexed: `normalize_run f fuel` is `some (v, n)` when
the loop ends within `fuel` calls, returning value `v` after exactly `n`
calls, and `none` when `fuel` calls do not suffice. -/

/-- `CORRECT_CATEGORIES` exactly as written in `upload_data.py:13`
(note: `"medical"` is listed twice and `"meditation"` is absent). -/
def CORRECT_CATEGORIES : List String :=
  ["general", "clothing", "medical",
   "restaurant", "AI", "fun",
   "beauty", "medical", "education", "inspirational", "other"]

/-- The vocabulary the classification prompt offers to the model
(`module_openai_categorizer.py:24`), which is also the label list of the
spec's FixedVocabulary. -/
def promptVocabulary : List String :=
  ["general", "clothing", "medical", "restaurant", "AI", "fun",
   "beauty", "meditation", "education", "inspirational", "other"]

/-- The retry loop of `upload_data.py:22`: call the oracle, accept the
first answer that is in `CORRECT_CATEGORIES`.  `i` is the index of the
next call; the returned `Nat` is the total number of calls made. -/
def categorize_loop (f : Nat → String) : Nat → Nat → Option (String × Nat)
  | 0, _ => none
  | fuel + 1, i =>
      let v := f i
      if v ∈ CORRECT_CATEGORIES then some (v, i + 1)
      else categorize_loop f fuel (i + 1)

/-- Running the normalization loop from the first call. -/
def normalize_run (f : Nat → String) (fuel : Nat) : Option (String × Nat) :=
  categorize_loop f fuel 0

/-- The stub classification capability of the spec's scenario: first call
answers `"snack"`, every later call answers `"restaurant"`. -/
def snackThenRestaurant : Nat → String :=
  fun i => if i = 0 then "snack" else "restaurant"

/-! ## Fulfillment pipeline (`instagram_downloader.py`)

The record loop of `process_all_videos` invokes
`download_instagram_video_instaloader` for every record
(`instagram_downloader.py:309`).  That function's first statement
evaluates `re.search(...)`, but the name `re` is never imported in the
module, so every invocation raises `NameError` before reaching its
`try` block or touching the filesystem; nothing in `process_all_videos`
catches the exception, so it aborts the whole batch.  A raised
exception is embedded as `Except.error`, propagated outward together
with the database and local-file state as it stands at the raise.  The
object-storage upload (`upload_to_aws`, wrapping an HTTP call) is an
oracle `up : Nat → Option String`; the time-stamped temp path computed
at `instagram_downloader.py:308` is an oracle `outp : Nat → String`;
the set of local files is an explicit `List String`. -/

/-- `InstagramDownloader.update_database_with_aws_url`
(`instagram_downloader.py:154`): sets the `aws_url` column of one backup
row. -/
def update_database_with_aws_url (rowid : Nat) (aws : String) (t : BackupTable) : BackupTable :=
  { t with rows := t.rows.map (fun p =>
      if p.1 = rowid then (p.1, { p.2 with aws_url := some aws }) else p) }

/-- `InstagramDownloader.cleanup_local_file`
(`instagram_downloader.py:178`): removes the file if it exists. -/
def cleanup_local_file (path : String) (files : List String) : List String :=
  files.erase path

/-- `InstagramDownloader.download_instagram_video_instaloader`
(`instagram_downloader.py:97`): its body begins with `re.search(...)`,
and the name `re` is defined nowhere in the module (it is never
imported), so every call raises `NameError` at once — before the `try`
block, before any filesystem access, and before any value could be
returned. -/
def download_instagram_video_instaloader (_url _output_path : String) :
    Except String (Option String) :=
  Except.error "NameError: name 're' is not defined"

/-- The record loop of `InstagramDownloader.process_all_videos`
(`instagram_downloader.py:293`): per record, call the downloader the
source calls; an exception from it is not caught anywhere in the loop
and aborts the batch with the state as it stands.  The remaining
branches embed lines 311-326 — when a file came back, try the upload
(recording the returned location on success), always clean the local
file up, and count the outcome; with no file, count a failure and move
on — though the downloader never returns normally, so they are never
taken.  `i` indexes the oracles. -/
def process_videos_loop (up : Nat → Option String) (outp : Nat → String) :
    List DlTuple → Nat → BackupTable → List String → Nat → Nat →
    BackupTable × List String × Except String (Nat × Nat)
  | [], _, bt, files, succ, fail => (bt, files, Except.ok (succ, fail))
  | t :: rest, i, bt, files, succ, fail =>
      match download_instagram_video_instaloader t.url (outp i) with
      | Except.error e => (bt, files, Except.error e)
      | Except.ok (some path) =>
          match up i with
          | some aws =>
              let bt1 := update_database_with_aws_url t.rowid aws bt
              process_videos_loop up outp rest (i + 1) bt1
                (cleanup_local_file path files) (succ + 1) fail
          | none =>
              process_videos_loop up outp rest (i + 1) bt
                (cleanup_local_file path files) succ (fail + 1)
      | Except.ok none =>
          process_videos_loop up outp rest (i + 1) bt files succ (fail + 1)

/-- `InstagramDownloader.process_all_videos`
(`instagram_downloader.py:282`): fetches the records via
`get_distinct_urls` (every backup row, no status filter), returns at
once when there are none, and otherwise runs the record loop — whose
first download raises, aborting the batch.  Returns the backup table,
the local files, and either the success/failure counters or the
escaped exception. -/
def process_all_videos (up : Nat → Option String) (outp : Nat → String)
    (bt : BackupTable) (files : List String) :
    BackupTable × List String × Except String (Nat × Nat) :=
  let urls_data := get_distinct_urls bt
  if urls_data.isEmpty then (bt, files, Except.ok (0, 0))
  else process_videos_loop up outp urls_data 0 bt files 0 0

/-! ## URL recognition (`main.py:24`, `is_url`)

`is_url` anchors a regular expression at the start of the text and,
through its final `$`, at the end.  Python's backtracking engine finds a
match exactly when one exists, so we embed the pattern as a
nondeterministic matcher: a `Matcher` maps an input to the list of
possible remainders after consuming a match of the sub-pattern, and the
text is a URL when some remainder is at the line end. -/

/-- A sub-pattern: input suffix to possible remainders. -/
abbrev Matcher := List Char → List (List Char)

/-- Empty pattern. -/
def mEps : Matcher := fun s => [s]

/-- Single character of a class. -/
def mChar (p : Char → Bool) : Matcher := fun s =>
  match s with
  | [] => []
  | c :: r => if p c then [r] else []

/-- Concatenation. -/
def mSeq (a b : Matcher) : Matcher := fun s => (a s).flatMap b

/-- Alternation. -/
def mAlt (a b : Matcher) : Matcher := fun s => a s ++ b s

/-- `?` (zero or one). -/
def mOpt (a : Matcher) : Matcher := fun s => a s ++ [s]

/-- `{0,n}` over a character class. -/
def mCountUpTo (p : Char → Bool) : Nat → Matcher
  | 0 => fun s => [s]
  | n + 1 => fun s =>
      s :: (match s with
            | [] => []
            | c :: r => if p c then mCountUpTo p n r else [])

/-- `{n}` over a character class. -/
def mExact (p : Char → Bool) : Nat → Matcher
  | 0 => mEps
  | n + 1 => mSeq (mChar p) (mExact p n)

/-- `{lo,hi}` over a character class. -/
def mRange (p : Char → Bool) (lo hi : Nat) : Matcher :=
  mSeq (mExact p lo) (mCountUpTo p (hi - lo))

/-- `+` over a character class. -/
def mMany1Aux (p : Char → Bool) : List Char → List (List Char)
  | [] => []
  | c :: r => if p c then r :: mMany1Aux p r else []

/-- `+` over a character class, as a `Matcher`. -/
def mMany1Char (p : Char → Bool) : Matcher := mMany1Aux p

/-- `+` over a sub-pattern; `fuel` bounds the number of extra
iterations (each iteration of the patterns used here consumes at least
one character, so input length is enough fuel). -/
def mPlus (a : Matcher) : Nat → Matcher
  | 0 => a
  | n + 1 => fun s => (a s).flatMap (fun r => r :: mPlus a n r)

/-- Case-insensitive literal (the pattern is compiled with
`re.IGNORECASE`). -/
def mLitCI : List Char → Matcher
  | [] => mEps
  | c :: rest => mSeq (mChar (fun d => d.toLower = c)) (mLitCI rest)

/-- `[A-Z0-9]` under `re.IGNORECASE`. -/
def urlAlnum (c : Char) : Bool := c.isAlpha || c.isDigit

/-- `[A-Z0-9-]` under `re.IGNORECASE`. -/
def urlAlnumHyphen (c : Char) : Bool := c.isAlpha || c.isDigit || c = '-'

/-- Python's ASCII whitespace (`\s`). -/
def pyIsSpace (c : Char) : Bool :=
  c = ' ' || c = '\t' || c = '\n' || c = '\r' || c = '\x0c' || c = '\x0b'

/-- `\S`. -/
def nonSpace (c : Char) : Bool := !(pyIsSpace c)

/-- `https?://`. -/
def schemeM : Matcher :=
  mSeq (mLitCI ['h', 't', 't', 'p'])
    (mSeq (mOpt (mChar (fun c => c.toLower = 's'))) (mLitCI [':', '/', '/']))

/-- One domain label with its dot:
`[A-Z0-9](?:[A-Z0-9-]{0,61}[A-Z0-9])?\.`. -/
def domainLabelM : Matcher :=
  mSeq (mChar urlAlnum)
    (mSeq (mOpt (mSeq (mCountUpTo urlAlnumHyphen 61) (mChar urlAlnum)))
      (mChar (fun c => c = '.')))

/-- `(?:label\.)+[A-Z]{2,6}\.?`. -/
def domainM (fuel : Nat) : Matcher :=
  mSeq (mPlus domainLabelM fuel)
    (mSeq (mRange Char.isAlpha 2 6) (mOpt (mChar (fun c => c = '.'))))

/-- `localhost`. -/
def localhostM : Matcher :=
  mLitCI ['l', 'o', 'c', 'a', 'l', 'h', 'o', 's', 't']

/-- `\d{1,3}`. -/
def ipOctetM : Matcher := mRange Char.isDigit 1 3

/-- `\d{1,3}\.\d{1,3}\.\d{1,3}\.\d{1,3}`. -/
def ipM : Matcher :=
  mSeq ipOctetM (mSeq (mChar (fun c => c = '.'))
    (mSeq ipOctetM (mSeq (mChar (fun c => c = '.'))
      (mSeq ipOctetM (mSeq (mChar (fun c => c = '.')) ipOctetM)))))

/-- `(?::\d+)?`. -/
def portM : Matcher :=
  mOpt (mSeq (mChar (fun c => c = ':')) (mMany1Char Char.isDigit))

/-- `(?:/?|[/?]\S+)`. -/
def tailM : Matcher :=
  mAlt (mOpt (mChar (fun c => c = '/')))
    (mSeq (mChar (fun c => c = '/' || c = '?')) (mMany1Char nonSpace))

/-- `$` (end of text, or just before one trailing newline). -/
def atLineEnd (s : List Char) : Bool := s.isEmpty || s = ['\n']

/-- `is_url` (`main.py:24`): the anchored pattern
`^https?://(domain|localhost|ip)(?::\d+)?(?:/?|[/?]\S+)$` under
`re.IGNORECASE`. -/
def is_url (text : String) : Bool :=
  let s := text.data
  ((mSeq schemeM
      (mSeq (mAlt (domainM s.length) (mAlt localhostM ipM))
        (mSeq portM tailM))) s).any atLineEnd

/-! ## Intake state machine (`main.py`)

The external date-resolution capability (`calculate_timestamp`, an
OpenAI call) is an oracle `ts : String → String → String`; the wall
clock read (`strftime(gmtime())`) is the parameter `now`.  The
per-submitter dict `self.user_messages` is an association list keyed by
the Telegram user id. -/

/-- Python truthiness of an optional string (`None` and `""` are falsy). -/
def truthy : Option String → Bool
  | none => false
  | some s => s != ""

/-- Python `str.strip()` on both ends (ASCII whitespace). -/
def pyStrip (s : String) : String :=
  String.mk (((s.data.dropWhile pyIsSpace).reverse.dropWhile pyIsSpace).reverse)

/-- Split a character list at every occurrence of the separator, keeping
empty pieces — the semantics of Python `str.split(sep)` for a one-character
separator. -/
def splitOnChar (sep : Char) : List Char → List (List Char)
  | [] => [[]]
  | c :: r =>
      if c = sep then [] :: splitOnChar sep r
      else
        match splitOnChar sep r with
        | t :: ts => (c :: t) :: ts
        | [] => [[c]]

/-- Python `s.split(sep)` for a one-character separator. -/
def pySplit (s : String) (sep : Char) : List String :=
  (splitOnChar sep s.data).map String.mk

/-- `parse_date_categories_description` (`main.py:37`): strip, split on
`","`; with 3 parts return all three, with 2 parts return the pair and
`None`, otherwise all `None`. -/
def parse_date_categories_description (text : String) :
    Option String × Option String × Option String :=
  match pySplit (pyStrip text) ',' with
  | [a, b, c] => (some a, some b, some c)
  | [a, b] => (some a, some b, none)
  | _ => (none, none, none)

/-- One value of the dict `self.user_messages`. -/
structure UserEntry where
  messages : List String
  username : String
  deriving Repr, DecidableEq

/-- The `DataCollector` instance state. -/
structure Collector where
  user_messages : List (Int × UserEntry)
  deriving Repr, DecidableEq

/-- Dict read. -/
def dictGet (k : Int) : List (Int × UserEntry) → Option UserEntry
  | [] => none
  | (k', v) :: rest => if k = k' then some v else dictGet k rest

/-- Dict write (replaces the binding of `k` if present, appends it
otherwise). -/
def dictSet (k : Int) (v : UserEntry) : List (Int × UserEntry) → List (Int × UserEntry)
  | [] => [(k, v)]
  | (k', v') :: rest => if k = k' then (k, v) :: rest else (k', v') :: dictSet k v rest

/-- The four local variables accumulated by the message-classification
loop of `process_messages` (`main.py:82`). -/
structure EvalAcc where
  url : Option String
  date : Option String
  categories : Option String
  description : Option String
  deriving Repr, DecidableEq

/-- One iteration of the loop of `main.py:82`: a URL message sets `url`;
any other message is parsed as a descriptor, and when its date and
categories tokens are truthy it sets date (resolved by the external
capability), categories and description, the description defaulting to
the fixed placeholder when the parsed description is not truthy. -/
def classify_message (ts : String → String → String) (now : String)
    (acc : EvalAcc) (msg : String) : EvalAcc :=
  if is_url msg then { acc with url := some msg }
  else
    let (pd, pc, pdesc) := parse_date_categories_description msg
    if truthy pd && truthy pc && truthy pdesc then
      { acc with date := some (ts (pd.getD "") now), categories := pc,
                 description := pdesc }
    else if truthy pd && truthy pc then
      { acc with date := some (ts (pd.getD "") now), categories := pc,
                 description := some "No description has been provided" }
    else acc

/-- The result payload of `process_messages`. -/
inductive Payload where
  | success (url date category description : String)
  | failure (error : String)
  deriving Repr, DecidableEq

/-- The save loop of `main.py:105`: `save_data_to_db` per category; an
exception aborts the loop and is caught by the surrounding `try`.
Returns the table, the calls actually issued, and whether all
succeeded. -/
def run_saves : List SaveData → DatasetTable → DatasetTable × List SaveData × Bool
  | [], t => (t, [], true)
  | d :: rest, t =>
      match save_data_to_db d t with
      | Except.ok t1 =>
          let r := run_saves rest t1
          (r.1, d :: r.2.1, r.2.2)
      | Except.error _ => (t, [d], false)

/-- `DataCollector.process_messages` (`main.py:70`).  The source indexes
`self.user_messages[user_id]` directly; its call sites guarantee the key
is present, and a missing key defaults here to an empty entry.  Returns
the payload, the collector (the two processed messages are removed from
the buffer before validation), the dataset table, and the
`save_data_to_db` calls issued. -/
def process_messages (ts : String → String → String) (now : String) (user_id : Int)
    (c : Collector) (db : DatasetTable) :
    Payload × Collector × DatasetTable × List SaveData :=
  let entry := (dictGet user_id c.user_messages).getD ⟨[], ""⟩
  let messages := entry.messages.take 2
  let username := entry.username
  let acc := messages.foldl (classify_message ts now) ⟨none, none, none, none⟩
  let c1 : Collector :=
    ⟨dictSet user_id { entry with messages := entry.messages.drop 2 } c.user_messages⟩
  if truthy acc.url && truthy acc.date && truthy acc.categories && truthy acc.description then
    let categories_list := pySplit (pyStrip (acc.categories.getD "")) '/'
    let saves := categories_list.map (fun cat =>
      { telegram_id := some user_id, username := some username,
        category := some cat, url := acc.url, date := acc.date,
        description := acc.description,
        upload_status := some "not uploaded" : SaveData })
    let r := run_saves saves db
    let payload :=
      if r.2.2 then
        Payload.success (acc.url.getD "") (acc.date.getD "")
          (acc.categories.getD "") (acc.description.getD "")
      else Payload.failure "Failed to save data to database."
    (payload, c1, r.1, r.2.1)
  else
    (Payload.failure "Invalid format. Need one URL and one 'date, category1/category2/..., description(optional: can be omitted)' message.",
      c1, db, [])

/-- `DataCollector.add_message` (`main.py:55`): ensure the submitter's
entry exists, refresh the username, append the message, and evaluate as
soon as the buffer holds at least two messages. -/
def add_message (ts : String → String → String) (now : String) (user_id : Int)
    (username message : String) (c : Collector) (db : DatasetTable) :
    Option Payload × Collector × DatasetTable × List SaveData :=
  let entry0 := (dictGet user_id c.user_messages).getD ⟨[], username⟩
  let entry1 : UserEntry := ⟨entry0.messages ++ [message], username⟩
  let c1 : Collector := ⟨dictSet user_id entry1 c.user_messages⟩
  if entry1.messages.length ≥ 2 then
    let r := process_messages ts now user_id c1 db
    (some r.1, r.2.1, r.2.2.1, r.2.2.2)
  else (none, c1, db, [])

/-- `DataCollector.clear_user_messages` (`main.py:138`). -/
def clear_user_messages (user_id : Int) (c : Collector) : Collector :=
  match dictGet user_id c.user_messages with
  | none => c
  | some e => ⟨dictSet user_id { e with messages := [] } c.user_messages⟩

/-- The public operations a submitter can drive (text message, `/reset`). -/
inductive BotOp where
  | add : Int → String → String → BotOp
  | clear : Int → BotOp
  deriving Repr, DecidableEq

/-- Sequential execution of a sequence of public operations. -/
def run_trace (ts : String → String → String) (now : String) :
    List BotOp → Collector × DatasetTable → Collector × DatasetTable
  | [], st => st
  | BotOp.add uid un msg :: rest, (c, db) =>
      let r := add_message ts now uid un msg c db
      run_trace ts now rest (r.2.1, r.2.2.1)
  | BotOp.clear uid :: rest, (c, db) =>
      run_trace ts now rest (clear_user_messages uid c, db)

/-- The collector as constructed in `main.py:144`. -/
def emptyCollector : Collector := ⟨[]⟩

/-- The `dataset` table right after `init_db`. -/
def emptyDataset : DatasetTable := ⟨[], 1⟩

/-- Every submitter's buffer holds at most one message. -/
def buffersBounded (c : Collector) : Prop :=
  ∀ p ∈ c.user_messages, p.2.messages.length ≤ 1

/-! ## Theorems -/

/-- The loop only ever accepts a member of `CORRECT_CATEGORIES`. -/
theorem categorize_loop_mem (f : Nat → String) :
    ∀ (fuel i : Nat) (r : String) (n : Nat),
      categorize_loop f fuel i = some (r, n) → r ∈ CORRECT_CATEGORIES := by
  intro fuel
  induction fuel with
  | zero => intro i r n h; cases h
  | succ k ih =>
      intro i r n h
      by_cases hv : f i ∈ CORRECT_CATEGORIES
      · rw [categorize_loop, if_pos hv] at h
        cases h
        exact hv
      · rw [categorize_loop, if_neg hv] at h
        exact ih (i + 1) r n h

/-- The code's accepted list is contained in the vocabulary offered to
the classification capability. -/
theorem correct_subset_prompt : ∀ r ∈ CORRECT_CATEGORIES, r ∈ promptVocabulary := by
  decide

/-- C4: whenever the normalization loop of `upload_data.py` terminates,
its result is a member of the fixed vocabulary offered to the
classification capability (and, more precisely, of the code's accepted
list `CORRECT_CATEGORIES`), for every sequence of raw strings the
capability may return. -/
theorem normalize_in_vocabulary (f : Nat → String) (fuel : Nat) (r : String) (n : Nat)
    (h : normalize_run f fuel = some (r, n)) :
    r ∈ CORRECT_CATEGORIES ∧ r ∈ promptVocabulary := by
  have hm := categorize_loop_mem f fuel 0 r n h
  exact ⟨hm, correct_subset_prompt r hm⟩

/-- Witness for C4 at a concrete capability always answering `"other"`. -/
theorem normalize_in_vocabulary_witness :
    normalize_run (fun _ => "other") 1 = some ("other", 1) ∧
    ("other" ∈ CORRECT_CATEGORIES ∧ "other" ∈ promptVocabulary) :=
  ⟨by decide, normalize_in_vocabulary (fun _ => "other") 1 "other" 1 (by decide)⟩

/-- A capability whose answer is never accepted spins forever: no fuel
suffices. -/
theorem categorize_loop_const_rejected (v : String) (hv : v ∉ CORRECT_CATEGORIES) :
    ∀ fuel i, categorize_loop (fun _ => v) fuel i = none := by
  intro fuel
  induction fuel with
  | zero => intro i; rfl
  | succ k ih =>
      intro i
      rw [categorize_loop, if_neg hv]
      exact ih (i + 1)

/-- If the first accepted answer is on call `j + n + 1`, the loop started
at call index `j` makes exactly the calls up to it and returns it. -/
theorem categorize_loop_first_accepted (f : Nat → String) :
    ∀ (n j fuel : Nat),
      (∀ m, j ≤ m → m < j + n → f m ∉ CORRECT_CATEGORIES) →
      f (j + n) ∈ CORRECT_CATEGORIES → n + 1 ≤ fuel →
      categorize_loop f fuel j = some (f (j + n), j + n + 1) := by
  intro n
  induction n with
  | zero =>
      intro j fuel _ h2 hf
      obtain ⟨fuel1, rfl⟩ : ∃ fuel1, fuel = fuel1 + 1 := ⟨fuel - 1, by omega⟩
      rw [Nat.add_zero] at h2
      rw [categorize_loop, if_pos h2]
      simp
  | succ k ih =>
      intro j fuel h1 h2 hf
      obtain ⟨fuel1, rfl⟩ : ∃ fuel1, fuel = fuel1 + 1 := ⟨fuel - 1, by omega⟩
      have hj : f j ∉ CORRECT_CATEGORIES := h1 j (Nat.le_refl j) (by omega)
      rw [categorize_loop, if_neg hj]
      have hstep : j + 1 + k = j + (k + 1) := by omega
      have := ih (j + 1) fuel1
        (fun m hm1 hm2 => h1 m (by omega) (by omega))
        (by rw [hstep]; exact h2) (by omega)
      rw [this, hstep]

/-- C5: the normalization retry loop has no built-in maximum number of
attempts.  A capability that always answers `"snack"`, or always
`"meditation"` (which the code's accepted list does not contain), never
makes the loop terminate, whatever the fuel; and when the first accepted
answer comes on attempt `n + 1`, the loop makes exactly `n + 1` calls
and returns that answer. -/
theorem normalize_retry_unbounded (f : Nat → String) (n : Nat)
    (h1 : ∀ m, m < n → f m ∉ CORRECT_CATEGORIES)
    (h2 : f n ∈ CORRECT_CATEGORIES) :
    (∀ fuel, normalize_run (fun _ => "snack") fuel = none) ∧
    (∀ fuel, normalize_run (fun _ => "meditation") fuel = none) ∧
    (∀ fuel, n + 1 ≤ fuel → normalize_run f fuel = some (f n, n + 1)) := by
  refine ⟨fun fuel => categorize_loop_const_rejected "snack" (by decide) fuel 0,
          fun fuel => categorize_loop_const_rejected "meditation" (by decide) fuel 0,
          fun fuel hf => ?_⟩
  have := categorize_loop_first_accepted f n 0 fuel
    (fun m hm1 hm2 => h1 m (by omega)) (by simpa using h2) hf
  simpa [normalize_run] using this

/-- Witness for C5: the spec's stub (`"snack"` then `"restaurant"`)
makes the loop return `"restaurant"` after exactly two calls. -/
theorem normalize_retry_unbounded_witness :
    ("snack" ∉ CORRECT_CATEGORIES ∧ "restaurant" ∈ CORRECT_CATEGORIES) ∧
    normalize_run snackThenRestaurant 2 = some ("restaurant", 2) := by
  refine ⟨by decide, ?_⟩
  have := (normalize_retry_unbounded snackThenRestaurant 1
    (by intro m hm; have hm0 : m = 0 := by omega
        rw [hm0]; decide)
    (by decide)).2.2 2 (by omega)
  simpa [snackThenRestaurant] using this

/-! ### C1: `change_upload_status` retried after promotion -/

/-- Number of backup rows carrying the given business fields. -/
def corresponding_backup_count (tid : Int) (un cat u : String) (t : BackupTable) : Nat :=
  (t.rows.filter (fun p => p.2.telegram_id == tid && p.2.username == un &&
      p.2.category == cat && p.2.url == u)).length

/-- A concrete pending record (rowid 1). -/
def c1Row : DataRow :=
  { telegram_id := 7, username := "alice", category := "fun",
    url := "https://example.com/v/1", date := "2024-06-08 12:00:00",
    description := some "clip", upload_status := some "not uploaded" }

/-- A concrete store holding only that record. -/
def c1DB : DB :=
  { dataset := ⟨[(1, c1Row)], 2⟩, backup := ⟨[], 1⟩ }

/-- Promotion of that record with its own field values, as
`upload_data.py:40` invokes it. -/
def c1Promote (db : DB) : DB :=
  change_upload_status 1 7 "alice" "https://example.com/v/1" "fun"
    "2024-06-08 12:00:00" (some "clip") "not uploaded" db

/-- C1 counterexample: re-invoking `change_upload_status` for a row that
has already been promoted leaves TWO corresponding rows in
`dataset_backup`, not one — the claimed idempotence fails at this
input. -/
theorem change_upload_status_retry_duplicates :
    corresponding_backup_count 7 "alice" "fun" "https://example.com/v/1"
      (c1Promote (c1Promote c1DB)).backup = 2 ∧
    (c1Promote c1DB).dataset.rows = [] := by
  decide

/-- C1 amended: `change_upload_status` appends one corresponding backup
row unconditionally on every invocation — the backup insert does not
depend on whether the `dataset` row still exists — so invoking it twice
with the same arguments adds exactly two corresponding ArchivedRecords. -/
theorem change_upload_status_always_appends (rowid : Nat) (tid : Int)
    (un u cat dt : String) (desc : Option String) (us : String) (db : DB) :
    corresponding_backup_count tid un cat u
        (change_upload_status rowid tid un u cat dt desc us
          (change_upload_status rowid tid un u cat dt desc us db)).backup =
      corresponding_backup_count tid un cat u db.backup + 2 := by
  have step : ∀ d : DB,
      corresponding_backup_count tid un cat u
          (change_upload_status rowid tid un u cat dt desc us d).backup =
        corresponding_backup_count tid un cat u d.backup + 1 := by
    intro d
    simp [change_upload_status, corresponding_backup_count, List.filter_append]
  rw [step, step]

/-! ### C2: what the fulfillment pass retrieves -/

/-- A backup record that has already been handled
(`download_status = "downloaded"`). -/
def c2Row : BackupRow :=
  { telegram_id := 7, username := "alice", category := "fun",
    url := "https://example.com/v/1", date := "2024-06-08 12:00:00",
    description := some "clip", upload_status := "uploaded",
    download_status := "downloaded", aws_url := none }

/-- A backup table holding only that handled record. -/
def c2Table : BackupTable := ⟨[(1, c2Row)], 2⟩

/-- C2 counterexample: a record whose `download_status` is `"downloaded"`
IS included in the set the fulfillment pass retrieves
(`get_distinct_urls` has no status filter), and the pass does not skip
it: it enters the record loop on it — and aborts inside its download
step with the escaped `NameError` — instead of returning the clean
empty-selection result. -/
theorem pipeline_selects_downloaded_record :
    (⟨"https://example.com/v/1", 1, 7, "alice", "fun", "2024-06-08 12:00:00",
        some "clip"⟩ : DlTuple) ∈ get_distinct_urls c2Table ∧
    c2Row.download_status ≠ "not_downloaded" ∧
    process_all_videos (fun _ => none) (fun _ => "p") c2Table [] =
      (c2Table, [], Except.error "NameError: name 're' is not defined") :=
  ⟨by decide, by decide, by rfl⟩

/-- In a list whose first components are distinct, two members sharing a
first component are equal. -/
theorem eq_of_fst_eq_of_nodup {α β : Type} {l : List (α × β)}
    (hn : (l.map Prod.fst).Nodup) {p q : α × β}
    (hp : p ∈ l) (hq : q ∈ l) (h : p.1 = q.1) : p = q := by
  induction l with
  | nil => cases hp
  | cons a rest ih =>
      rw [List.map_cons, List.nodup_cons] at hn
      rcases List.mem_cons.mp hp with rfl | hp1
      · rcases List.mem_cons.mp hq with rfl | hq1
        · rfl
        · exact absurd (h ▸ List.mem_map_of_mem Prod.fst hq1) hn.1
      · rcases List.mem_cons.mp hq with rfl | hq1
        · exact absurd (h ▸ List.mem_map_of_mem Prod.fst hp1) hn.1
        · exact ih hn.2 hp1 hq1

/-- C2 amended: every backup row — whatever its `download_status` — is
retrieved by the fulfillment pass's own query `get_distinct_urls`; only
the helper `get_download_url_data` (which nothing in the repository
calls) restricts to rows still in `not_downloaded`. -/
theorem c2_amended (bt : BackupTable) (p : Nat × BackupRow)
    (hnd : (bt.rows.map Prod.fst).Nodup) (hmem : p ∈ bt.rows) :
    (⟨p.2.url, p.1, p.2.telegram_id, p.2.username, p.2.category, p.2.date,
        p.2.description⟩ : DlTuple) ∈ get_distinct_urls bt ∧
    (p.2.download_status ≠ "not_downloaded" →
      (p.2.url, p.1) ∉ get_download_url_data bt) := by
  constructor
  · exact List.mem_dedup.mpr (List.mem_map_of_mem _ hmem)
  · intro hst hin
    rw [get_download_url_data, List.mem_dedup] at hin
    obtain ⟨q, hq, hqeq⟩ := List.mem_map.mp hin
    have hqf := List.of_mem_filter hq
    have hqrows := List.mem_of_mem_filter hq
    have hfst : q.1 = p.1 := congrArg Prod.snd hqeq
    have : q = p := eq_of_fst_eq_of_nodup hnd hqrows hmem hfst
    rw [this] at hqf
    simp only [decide_eq_true_eq] at hqf
    exact hst hqf

/-- Witness for the amended C2 at the concrete handled record. -/
theorem c2_amended_witness :
    (⟨"https://example.com/v/1", 1, 7, "alice", "fun", "2024-06-08 12:00:00",
        some "clip"⟩ : DlTuple) ∈ get_distinct_urls c2Table ∧
    ("https://example.com/v/1", 1) ∉ get_download_url_data c2Table := by
  have h := c2_amended c2Table (1, c2Row) (by decide) (by decide)
  exact ⟨h.1, h.2 (by decide)⟩

/-! ### C3: upsert and the uniqueness invariant -/

/-- No two rows of the `dataset` table share the unique key
`(telegram_id, url, category)`. -/
def keysNodup (t : DatasetTable) : Prop :=
  (t.rows.map (fun p => rowKey p.2)).Nodup

/-- C3: with the five required fields present, `save_data_to_db`
succeeds, preserves the key-uniqueness invariant, and, when a row with
the submission's `(telegram_id, url, category)` key is already stored,
rewrites that row's username, date, upload status and description in
place without changing the row count — no second row appears. -/
theorem save_preserves_uniqueness (d : SaveData) (tid : Int) (un cat u dt : String)
    (h1 : d.telegram_id = some tid) (h2 : d.username = some un)
    (h3 : d.category = some cat) (h4 : d.url = some u) (h5 : d.date = some dt)
    (t : DatasetTable) (hnd : keysNodup t) :
    ∃ t', save_data_to_db d t = Except.ok t' ∧ keysNodup t' ∧
      ((∃ p ∈ t.rows, rowKey p.2 = (tid, u, cat)) →
        t'.rows.length = t.rows.length ∧
        t'.rows = t.rows.map (fun p =>
          if rowKey p.2 = (tid, u, cat) then
            (p.1, { p.2 with
                      username := un
                      date := dt
                      upload_status := d.upload_status
                      description := d.description })
          else p)) := by
  simp only [save_data_to_db, h1, h2, h3, h4, h5]
  split
  next hany =>
    refine ⟨_, rfl, ?_, fun _ => ⟨by rw [List.length_map], rfl⟩⟩
    unfold keysNodup at hnd ⊢
    have hkeys : (t.rows.map (fun p =>
        if rowKey p.2 = (tid, u, cat) then
          (p.1, { p.2 with
                    username := un
                    date := dt
                    upload_status := d.upload_status
                    description := d.description })
        else p)).map (fun p => rowKey p.2) =
        t.rows.map (fun p => rowKey p.2) := by
      rw [List.map_map]
      refine List.map_congr_left (fun p _ => ?_)
      by_cases hk : rowKey p.2 = (tid, u, cat)
      · simp only [Function.comp_apply, if_pos hk]
        rw [hk]
        exact hk
      · simp only [Function.comp_apply, if_neg hk]
    rw [hkeys]
    exact hnd
  next hany =>
    have hany' : ∀ p ∈ t.rows, rowKey p.2 ≠ (tid, u, cat) := by
      intro p hp hk
      exact hany (List.any_eq_true.mpr ⟨p, hp, by simp [hk]⟩)
    refine ⟨_, rfl, ?_, ?_⟩
    · unfold keysNodup at hnd ⊢
      rw [List.map_append, List.map_singleton]
      rw [List.nodup_append]
      refine ⟨hnd, List.nodup_singleton _, ?_⟩
      intro k hk hk1
      rw [List.mem_singleton] at hk1
      obtain ⟨p, hp, hpk⟩ := List.mem_map.mp hk
      exact hany' p hp (by rw [hpk, hk1]; rfl)
    · intro ⟨p, hp, hpk⟩
      exact absurd hpk (hany' p hp)

/-- A concrete resubmission hitting an existing key. -/
def c3Existing : DatasetTable :=
  ⟨[(1, { telegram_id := 7, username := "alice", category := "fun",
          url := "https://example.com/v/1", date := "old date",
          description := some "old", upload_status := some "not uploaded" })], 2⟩

/-- The resubmitted data, same `(telegram_id, url, category)`, new
username/date/description. -/
def c3Resubmission : SaveData :=
  { telegram_id := some 7, username := some "alice2", category := some "fun",
    url := some "https://example.com/v/1", date := some "new date",
    description := some "new", upload_status := some "not uploaded" }

/-- Witness for C3 at the concrete resubmission. -/
theorem save_preserves_uniqueness_witness :
    ∃ t', save_data_to_db c3Resubmission c3Existing = Except.ok t' ∧
      keysNodup t' ∧
      ((∃ p ∈ c3Existing.rows, rowKey p.2 = (7, "https://example.com/v/1", "fun")) →
        t'.rows.length = c3Existing.rows.length ∧
        t'.rows = c3Existing.rows.map (fun p =>
          if rowKey p.2 = (7, "https://example.com/v/1", "fun") then
            (p.1, { p.2 with
                      username := "alice2"
                      date := "new date"
                      upload_status := c3Resubmission.upload_status
                      description := c3Resubmission.description })
          else p)) :=
  save_preserves_uniqueness c3Resubmission 7 "alice2" "fun"
    "https://example.com/v/1" "new date" rfl rfl rfl rfl rfl c3Existing
    (by unfold keysNodup; decide)

/-! ### C8: what the pipeline does on retrieval failure -/

/-- A pending (not yet downloaded) backup record. -/
def c8Row : BackupRow :=
  { telegram_id := 7, username := "alice", category := "fun",
    url := "https://example.com/v/1", date := "2024-06-08 12:00:00",
    description := some "clip", upload_status := "uploaded",
    download_status := "not_downloaded", aws_url := none }

/-- A backup table holding only that pending record. -/
def c8Table : BackupTable := ⟨[(1, c8Row)], 2⟩

/-- C8 counterexample: when the pipeline attempts that record, its
retrieval raises and the whole batch aborts with the backup table
exactly as it was — the record's `download_status` stays
`"not_downloaded"`, is never set to `"failed"`, and the pipeline does
not continue to any next record. -/
theorem retrieval_failure_not_marked_failed :
    process_all_videos (fun _ => none) (fun _ => "p") c8Table [] =
      (c8Table, [], Except.error "NameError: name 're' is not defined") ∧
    c8Row.download_status = "not_downloaded" ∧
    c8Row.download_status ≠ "failed" :=
  ⟨by rfl, by decide, by decide⟩

/-- C8 amended: whenever the pass has at least one record to process,
its very first retrieval raises an uncaught `NameError` and the batch
halts on that first record: no record's `download_status` is ever
changed (`change_download_status` has no caller, so nothing is ever
marked `"failed"`), no `remote_location` is assigned, and the backup
table and local files are returned exactly as they started, with the
escaped exception in place of the outcome counters. -/
theorem pipeline_failure_leaves_state (up : Nat → Option String)
    (outp : Nat → String) (bt : BackupTable) (files : List String)
    (hne : (get_distinct_urls bt).isEmpty = false) :
    process_all_videos up outp bt files =
      (bt, files, Except.error "NameError: name 're' is not defined") := by
  rw [process_all_videos]
  rw [if_neg (by rw [hne]; exact Bool.false_ne_true)]
  cases hu : get_distinct_urls bt with
  | nil =>
      rw [hu] at hne
      cases hne
  | cons t rest => rfl

/-- Witness for the amended C8 at the concrete pending record. -/
theorem pipeline_failure_leaves_state_witness :
    process_all_videos (fun _ => none) (fun _ => "p") c8Table [] =
      (c8Table, [], Except.error "NameError: name 're' is not defined") :=
  pipeline_failure_leaves_state (fun _ => none) (fun _ => "p") c8Table []
    (by decide)

/-! ### C9: transient local artifacts -/

/-- C9: no transient local artifact remains on disk after a pipeline
run — degenerately so: the download step the pipeline calls
(`download_instagram_video_instaloader`) raises before writing any
file, so no local artifact is ever created and the local file set comes
back exactly as it went in, on every input, whatever the upload oracle
does.  The second conjunct makes the degeneracy explicit: the download
step never hands the pipeline a file, so the cleanup branch of
`instagram_downloader.py:322` is never reached and the claim's
"whenever a local file is produced, cleanup deletes it" holds with a
never-satisfied antecedent. -/
theorem pipeline_leaves_no_artifact (up : Nat → Option String)
    (outp : Nat → String) (bt : BackupTable) (files : List String) :
    (process_all_videos up outp bt files).2.1 = files ∧
    ∀ u o, download_instagram_video_instaloader u o =
      Except.error "NameError: name 're' is not defined" := by
  refine ⟨?_, fun u o => rfl⟩
  rw [process_all_videos]
  by_cases he : (get_distinct_urls bt).isEmpty
  · rw [if_pos he]
  · rw [if_neg he]
    cases hu : get_distinct_urls bt with
    | nil =>
        rw [hu] at he
        exact absurd rfl he
    | cons t rest => rfl

/-! ### C10: the per-submitter buffer bound -/

/-- The keys of the collector dict are distinct (true of every Python
dict, and preserved by `dictSet`). -/
def collectorWF (c : Collector) : Prop :=
  (c.user_messages.map Prod.fst).Nodup

/-- A successful dict read is a member. -/
theorem dictGet_mem {k : Int} {l : List (Int × UserEntry)} {v : UserEntry}
    (h : dictGet k l = some v) : (k, v) ∈ l := by
  induction l with
  | nil => cases h
  | cons a rest ih =>
      rw [dictGet] at h
      by_cases hk : k = a.1
      · rw [if_pos hk] at h
        cases h
        rw [hk]
        exact List.mem_cons_self a rest
      · rw [if_neg hk] at h
        exact List.mem_cons_of_mem a (ih h)

/-- Reading back the key just written. -/
theorem dictGet_dictSet_self (k : Int) (v : UserEntry) (l : List (Int × UserEntry)) :
    dictGet k (dictSet k v l) = some v := by
  induction l with
  | nil => simp [dictSet, dictGet]
  | cons a rest ih =>
      rw [dictSet]
      by_cases hk : k = a.1
      · rw [if_pos hk, dictGet, if_pos rfl]
      · rw [if_neg hk, dictGet, if_neg hk]
        exact ih

/-- Any key of the written dict is the written key or an old key. -/
theorem keys_dictSet_subset {k : Int} {v : UserEntry} {l : List (Int × UserEntry)}
    {x : Int} (hx : x ∈ (dictSet k v l).map Prod.fst) :
    x = k ∨ x ∈ l.map Prod.fst := by
  induction l with
  | nil =>
      rw [dictSet, List.map_singleton, List.mem_singleton] at hx
      exact Or.inl hx
  | cons a rest ih =>
      rw [dictSet] at hx
      by_cases hk : k = a.1
      · rw [if_pos hk, List.map_cons, List.mem_cons] at hx
        rcases hx with rfl | hx1
        · exact Or.inl rfl
        · exact Or.inr (List.mem_cons_of_mem a.1 hx1)
      · rw [if_neg hk, List.map_cons, List.mem_cons] at hx
        rcases hx with rfl | hx1
        · exact Or.inr (List.mem_cons_self _ _)
        · rcases ih hx1 with h | h
          · exact Or.inl h
          · exact Or.inr (List.mem_cons_of_mem a.1 h)

/-- `dictSet` keeps the keys distinct. -/
theorem dictSet_keys_nodup {k : Int} {v : UserEntry} {l : List (Int × UserEntry)}
    (hn : (l.map Prod.fst).Nodup) : ((dictSet k v l).map Prod.fst).Nodup := by
  induction l with
  | nil => simp [dictSet]
  | cons a rest ih =>
      rw [List.map_cons, List.nodup_cons] at hn
      rw [dictSet]
      by_cases hk : k = a.1
      · rw [if_pos hk, List.map_cons, List.nodup_cons]
        exact ⟨by rw [← hk] at hn; exact hn.1, hn.2⟩
      · rw [if_neg hk, List.map_cons, List.nodup_cons]
        refine ⟨fun hmem => ?_, ih hn.2⟩
        rcases keys_dictSet_subset hmem with h | h
        · exact hk h.symm
        · exact hn.1 h

/-- With distinct keys, a member of the written dict is the written
binding or an old binding with a different key. -/
theorem mem_dictSet_of_nodup {k : Int} {v : UserEntry} {l : List (Int × UserEntry)}
    (hn : (l.map Prod.fst).Nodup) {p : Int × UserEntry} (hp : p ∈ dictSet k v l) :
    p = (k, v) ∨ (p ∈ l ∧ p.1 ≠ k) := by
  induction l with
  | nil =>
      rw [dictSet, List.mem_singleton] at hp
      exact Or.inl hp
  | cons a rest ih =>
      rw [List.map_cons, List.nodup_cons] at hn
      rw [dictSet] at hp
      by_cases hk : k = a.1
      · rw [if_pos hk, List.mem_cons] at hp
        rcases hp with rfl | hp1
        · exact Or.inl rfl
        · refine Or.inr ⟨List.mem_cons_of_mem a hp1, fun hpk => ?_⟩
          rw [hk] at hpk
          exact hn.1 (hpk ▸ List.mem_map_of_mem Prod.fst hp1)
      · rw [if_neg hk, List.mem_cons] at hp
        rcases hp with rfl | hp1
        · exact Or.inr ⟨List.mem_cons_self _ _, fun hpk => hk hpk.symm⟩
        · rcases ih hn.2 hp1 with h | ⟨h1, h2⟩
          · exact Or.inl h
          · exact Or.inr ⟨List.mem_cons_of_mem a h1, h2⟩

/-- The collector returned by `process_messages`, in closed form: the
submitter's buffer loses its first two messages, nothing else changes. -/
theorem process_messages_collector (ts : String → String → String) (now : String)
    (user_id : Int) (c : Collector) (db : DatasetTable) :
    (process_messages ts now user_id c db).2.1 =
      ⟨dictSet user_id
        { (dictGet user_id c.user_messages).getD ⟨[], ""⟩ with
            messages := ((dictGet user_id c.user_messages).getD ⟨[], ""⟩).messages.drop 2 }
        c.user_messages⟩ := by
  rw [process_messages]
  split
  · rfl
  · rfl

/-- `clear_user_messages` keeps the keys distinct and the buffers
bounded. -/
theorem clear_preserves (uid : Int) (c : Collector)
    (hwf : collectorWF c) (hb : buffersBounded c) :
    collectorWF (clear_user_messages uid c) ∧
      buffersBounded (clear_user_messages uid c) := by
  rw [clear_user_messages]
  cases hget : dictGet uid c.user_messages with
  | none => exact ⟨hwf, hb⟩
  | some e =>
      constructor
      · exact dictSet_keys_nodup hwf
      · intro p hp
        rcases mem_dictSet_of_nodup hwf hp with rfl | ⟨h1, _⟩
        · exact Nat.zero_le 1
        · exact hb p h1

/-- `add_message` keeps the keys distinct and the buffers bounded: the
appended message either leaves the buffer at one message, or brings it
to two and `process_messages` immediately removes both. -/
theorem add_preserves (ts : String → String → String) (now : String)
    (uid : Int) (un msg : String) (c : Collector) (db : DatasetTable)
    (hwf : collectorWF c) (hb : buffersBounded c) :
    collectorWF (add_message ts now uid un msg c db).2.1 ∧
      buffersBounded (add_message ts now uid un msg c db).2.1 := by
  rw [add_message]
  have hlen0 : ((dictGet uid c.user_messages).getD ⟨[], un⟩).messages.length ≤ 1 := by
    cases hget : dictGet uid c.user_messages with
    | none => exact Nat.zero_le 1
    | some e => exact hb (uid, e) (dictGet_mem hget)
  split
  next hge =>
    rw [process_messages_collector]
    rw [show (⟨dictSet uid
        ⟨((dictGet uid c.user_messages).getD ⟨[], un⟩).messages ++ [msg], un⟩
        c.user_messages⟩ : Collector).user_messages = dictSet uid
        ⟨((dictGet uid c.user_messages).getD ⟨[], un⟩).messages ++ [msg], un⟩
        c.user_messages from rfl]
    rw [dictGet_dictSet_self]
    constructor
    · exact dictSet_keys_nodup (dictSet_keys_nodup hwf)
    · intro p hp
      rcases mem_dictSet_of_nodup (dictSet_keys_nodup hwf) hp with rfl | ⟨h1, h2⟩
      · simp only [Option.getD_some, List.length_drop, List.length_append,
          List.length_singleton]
        omega
      · rcases mem_dictSet_of_nodup hwf h1 with rfl | ⟨h3, _⟩
        · exact absurd rfl h2
        · exact hb p h3
  next hge =>
    constructor
    · exact dictSet_keys_nodup hwf
    · intro p hp
      rcases mem_dictSet_of_nodup hwf hp with rfl | ⟨h1, _⟩
      · simp only [not_le] at hge
        simp only [List.length_append, List.length_singleton] at hge ⊢
        omega
      · exact hb p h1

/-- C10: under sequential execution of any sequence of inbound messages
and resets, starting from the freshly constructed collector, every
submitter's buffer holds at most one message whenever `add_message` or
`clear_user_messages` returns. -/
theorem buffer_at_most_one (ts : String → String → String) (now : String)
    (ops : List BotOp) :
    buffersBounded (run_trace ts now ops (emptyCollector, emptyDataset)).1 := by
  suffices h : ∀ (ops : List BotOp) (c : Collector) (db : DatasetTable),
      collectorWF c → buffersBounded c →
      collectorWF (run_trace ts now ops (c, db)).1 ∧
        buffersBounded (run_trace ts now ops (c, db)).1 by
    exact (h ops emptyCollector emptyDataset (List.nodup_nil) (fun p hp => by cases hp)).2
  intro ops
  induction ops with
  | nil => intro c db hwf hb; exact ⟨hwf, hb⟩
  | cons op rest ih =>
      intro c db hwf hb
      cases op with
      | add uid un m =>
          rw [run_trace]
          obtain ⟨hwf1, hb1⟩ := add_preserves ts now uid un m c db hwf hb
          exact ih _ _ hwf1 hb1
      | clear uid =>
          rw [run_trace]
          obtain ⟨hwf1, hb1⟩ := clear_preserves uid c hwf hb
          exact ih _ _ hwf1 hb1

/-! ### C6/C7: evaluation of a buffered pair -/

/-- A nonempty optional string is truthy. -/
theorem truthy_some_of_ne {s : String} (h : s ≠ "") : truthy (some s) = true := by
  simp only [truthy, bne_iff_ne, ne_eq]
  exact h

/-- The empty string is not a URL (the pattern requires a scheme). -/
theorem is_url_empty : is_url "" = false := by decide

/-- A URL message sets the accumulator's reference. -/
theorem classify_url (ts : String → String → String) (now : String)
    (a : EvalAcc) (m : String) (h : is_url m = true) :
    classify_message ts now a m = { a with url := some m } := by
  rw [classify_message, if_pos h]

/-- A parsable descriptor message sets date, categories and description,
the description defaulting to the placeholder when the parsed third
token is not truthy. -/
theorem classify_descriptor (ts : String → String → String) (now : String)
    (a : EvalAcc) (m : String) (pd cats : String) (pdesc : Option String)
    (h : is_url m = false)
    (hp : parse_date_categories_description m = (some pd, some cats, pdesc))
    (hpd : pd ≠ "") (hcats : cats ≠ "") :
    classify_message ts now a m =
      { a with
          date := some (ts pd now)
          categories := some cats
          description :=
            if truthy pdesc then pdesc else some "No description has been provided" } := by
  rw [classify_message, if_neg (by rw [h]; exact Bool.false_ne_true)]
  simp only [hp]
  by_cases htd : truthy pdesc = true
  · rw [if_pos (by rw [truthy_some_of_ne hpd, truthy_some_of_ne hcats, htd]; rfl)]
    rw [if_pos htd]
    simp
  · have htd' : truthy pdesc = false := by
      cases hv : truthy pdesc
      · rfl
      · exact absurd hv htd
    rw [if_neg (by rw [truthy_some_of_ne hpd, truthy_some_of_ne hcats, htd']; simp)]
    rw [if_pos (by rw [truthy_some_of_ne hpd, truthy_some_of_ne hcats]; rfl)]
    rw [if_neg (by rw [htd']; simp)]
    simp

/-- A non-URL message never touches the accumulated reference. -/
theorem classify_keeps_url (ts : String → String → String) (now : String)
    (a : EvalAcc) (m : String) (h : is_url m = false) :
    (classify_message ts now a m).url = a.url := by
  rw [classify_message, if_neg (by rw [h]; exact Bool.false_ne_true)]
  rcases hp : parse_date_categories_description m with ⟨pd, pc, pdesc⟩
  simp only [hp]
  split
  · rfl
  · split
    · rfl
    · rfl

/-- A descriptor that does not yield truthy date and categories tokens. -/
def bad_descriptor (m : String) : Bool :=
  !(truthy (parse_date_categories_description m).1 &&
    truthy (parse_date_categories_description m).2.1)

/-- An unparseable descriptor leaves the accumulator unchanged. -/
theorem classify_bad_descriptor (ts : String → String → String) (now : String)
    (a : EvalAcc) (m : String) (h : is_url m = false)
    (hb : bad_descriptor m = true) :
    classify_message ts now a m = a := by
  rw [classify_message, if_neg (by rw [h]; exact Bool.false_ne_true)]
  rcases hp : parse_date_categories_description m with ⟨pd, pc, pdesc⟩
  rw [bad_descriptor, hp] at hb
  simp only [Bool.not_and] at hb
  have hb' : (truthy pd && truthy pc) = false := by
    cases hd : truthy pd
    · rfl
    · cases hc : truthy pc
      · rfl
      · rw [hd, hc] at hb
        cases hb
  simp only [hp]
  have h1 : (truthy pd && truthy pc && truthy pdesc) = false := by
    rw [hb']
    rfl
  rw [if_neg (by rw [h1]; simp)]
  rw [if_neg (by rw [hb']; simp)]

/-- `save_data_to_db` succeeds whenever the five required fields are
present. -/
theorem save_data_to_db_ok (d : SaveData) (t : DatasetTable)
    (h1 : d.telegram_id.isSome = true) (h2 : d.username.isSome = true)
    (h3 : d.category.isSome = true) (h4 : d.url.isSome = true)
    (h5 : d.date.isSome = true) :
    ∃ t1, save_data_to_db d t = Except.ok t1 := by
  obtain ⟨a, ha⟩ := Option.isSome_iff_exists.mp h1
  obtain ⟨b, hb⟩ := Option.isSome_iff_exists.mp h2
  obtain ⟨e, he⟩ := Option.isSome_iff_exists.mp h3
  obtain ⟨f, hf⟩ := Option.isSome_iff_exists.mp h4
  obtain ⟨g, hg⟩ := Option.isSome_iff_exists.mp h5
  simp only [save_data_to_db, ha, hb, he, hf, hg]
  split
  · exact ⟨_, rfl⟩
  · exact ⟨_, rfl⟩

/-- When every save in the batch carries its required fields, the save
loop issues exactly the whole batch and reports success. -/
theorem run_saves_all_present :
    ∀ (l : List SaveData) (t : DatasetTable),
      (∀ d ∈ l, d.telegram_id.isSome = true ∧ d.username.isSome = true ∧
        d.category.isSome = true ∧ d.url.isSome = true ∧ d.date.isSome = true) →
      (run_saves l t).2.1 = l ∧ (run_saves l t).2.2 = true := by
  intro l
  induction l with
  | nil => intro t _; exact ⟨rfl, rfl⟩
  | cons d rest ih =>
      intro t hall
      obtain ⟨hf1, hf2, hf3, hf4, hf5⟩ := hall d (List.mem_cons_self d rest)
      obtain ⟨t1, ht1⟩ := save_data_to_db_ok d t hf1 hf2 hf3 hf4 hf5
      simp only [run_saves, ht1]
      obtain ⟨hi1, hi2⟩ := ih t1 (fun x hx => hall x (List.mem_cons_of_mem d hx))
      exact ⟨by rw [hi1], by rw [hi2]⟩

/-- Core of C6: once the classification loop has produced a reference,
date, categories and description that are all nonempty, evaluation
upserts one record per category token of the categories value, echoes
everything in a success payload, and drops the two processed messages. -/
theorem process_messages_valid_core (ts : String → String → String) (now : String)
    (uid : Int) (un : String) (msgs : List String) (c : Collector)
    (db : DatasetTable) (u d cat desc : String)
    (hbuf : dictGet uid c.user_messages = some ⟨msgs, un⟩)
    (hacc : (msgs.take 2).foldl (classify_message ts now)
        ⟨none, none, none, none⟩ = ⟨some u, some d, some cat, some desc⟩)
    (hut : u ≠ "") (hdt : d ≠ "") (hct : cat ≠ "") (hdet : desc ≠ "") :
    (process_messages ts now uid c db).1 = Payload.success u d cat desc ∧
    (process_messages ts now uid c db).2.2.2 =
      (pySplit (pyStrip cat) '/').map (fun x =>
        ⟨some uid, some un, some x, some u, some d, some desc, some "not uploaded"⟩) ∧
    (process_messages ts now uid c db).2.1 =
      ⟨dictSet uid ⟨msgs.drop 2, un⟩ c.user_messages⟩ := by
  have hsaves := run_saves_all_present
    ((pySplit (pyStrip cat) '/').map (fun x =>
      (⟨some uid, some un, some x, some u, some d, some desc,
        some "not uploaded"⟩ : SaveData))) db
    (by
      intro x hx
      rcases List.mem_map.mp hx with ⟨y, _, rfl⟩
      exact ⟨rfl, rfl, rfl, rfl, rfl⟩)
  simp only [process_messages, hbuf, Option.getD_some, hacc,
    truthy_some_of_ne hut, truthy_some_of_ne hdt, truthy_some_of_ne hct,
    truthy_some_of_ne hdet, Bool.and_self, if_true, hsaves.1, hsaves.2]
  exact ⟨trivial, trivial, trivial⟩

/-- A two-part descriptor parses with no description token. -/
theorem parse_two_parts_no_description (m : String)
    (h : (pySplit (pyStrip m) ',').length = 2) :
    (parse_date_categories_description m).2.2 = none := by
  rw [parse_date_categories_description]
  rcases hs : pySplit (pyStrip m) ',' with _ | ⟨a, _ | ⟨b, _ | ⟨c, rest⟩⟩⟩
  · rfl
  · rfl
  · rfl
  · rw [hs] at h
    simp only [List.length_cons] at h
    omega

/-- C6: for every valid pair of one reference message and one descriptor
message, submitted in either order, evaluation splits the categories
token on `/`, issues exactly one upsert per resulting category token —
all sharing reference, resolved date and description, the description
defaulting to the fixed placeholder when the descriptor has only two
comma-separated parts — clears the buffered pair, and returns a success
payload echoing reference, date, categories and description. -/
theorem valid_pair_upserted (ts : String → String → String) (now : String)
    (uid : Int) (un m1 m2 : String) (msgs : List String) (c : Collector)
    (db : DatasetTable) (pd cats : String) (pdesc : Option String)
    (hbuf : dictGet uid c.user_messages = some ⟨msgs, un⟩)
    (horder : msgs = [m1, m2] ∨ msgs = [m2, m1])
    (hurl : is_url m1 = true)
    (hnoturl : is_url m2 = false)
    (hparse : parse_date_categories_description m2 = (some pd, some cats, pdesc))
    (hpd : pd ≠ "") (hcats : cats ≠ "") (hts : ts pd now ≠ "") :
    (process_messages ts now uid c db).1 =
      Payload.success m1 (ts pd now) cats
        (if truthy pdesc then pdesc.getD ""
         else "No description has been provided") ∧
    (process_messages ts now uid c db).2.2.2 =
      (pySplit (pyStrip cats) '/').map (fun x =>
        ⟨some uid, some un, some x, some m1, some (ts pd now),
          some (if truthy pdesc then pdesc.getD ""
                else "No description has been provided"),
          some "not uploaded"⟩) ∧
    (process_messages ts now uid c db).2.1 =
      ⟨dictSet uid ⟨[], un⟩ c.user_messages⟩ ∧
    ((pySplit (pyStrip m2) ',').length = 2 →
      (if truthy pdesc then pdesc.getD ""
       else "No description has been provided")
        = "No description has been provided") := by
  have hm1 : m1 ≠ "" := by
    intro he
    rw [he, is_url_empty] at hurl
    cases hurl
  have hdesc : (if truthy pdesc then pdesc else some "No description has been provided")
      = some (if truthy pdesc then pdesc.getD ""
              else "No description has been provided") := by
    by_cases htd : truthy pdesc = true
    · rw [if_pos htd, if_pos htd]
      cases pdesc with
      | none => cases htd
      | some s => rfl
    · have htd' : truthy pdesc = false := by
        cases hv : truthy pdesc
        · rfl
        · exact absurd hv htd
      rw [htd']
      simp
  have hdet : (if truthy pdesc then pdesc.getD ""
      else "No description has been provided") ≠ "" := by
    by_cases htd : truthy pdesc = true
    · rw [if_pos htd]
      cases pdesc with
      | none => cases htd
      | some s =>
          simp only [truthy, bne_iff_ne, ne_eq, decide_eq_true_eq] at htd
          simpa using htd
    · have htd' : truthy pdesc = false := by
        cases hv : truthy pdesc
        · rfl
        · exact absurd hv htd
      rw [htd', if_neg Bool.false_ne_true]
      decide
  have hacc : (msgs.take 2).foldl (classify_message ts now)
      ⟨none, none, none, none⟩ =
      ⟨some m1, some (ts pd now), some cats,
        some (if truthy pdesc then pdesc.getD ""
              else "No description has been provided")⟩ := by
    rcases horder with rfl | rfl
    · show classify_message ts now
        (classify_message ts now ⟨none, none, none, none⟩ m1) m2 = _
      rw [classify_url ts now _ m1 hurl,
        classify_descriptor ts now _ m2 pd cats pdesc hnoturl hparse hpd hcats,
        hdesc]
    · show classify_message ts now
        (classify_message ts now ⟨none, none, none, none⟩ m2) m1 = _
      rw [classify_descriptor ts now _ m2 pd cats pdesc hnoturl hparse hpd hcats,
        classify_url ts now _ m1 hurl, hdesc]
  have hdrop : msgs.drop 2 = [] := by
    rcases horder with rfl | rfl
    · rfl
    · rfl
  have hcore := process_messages_valid_core ts now uid un msgs c db m1 (ts pd now)
    cats _ hbuf hacc hm1 hts hcats hdet
  refine ⟨hcore.1, hcore.2.1, by rw [hcore.2.2, hdrop], fun hlen => ?_⟩
  have hnone := parse_two_parts_no_description m2 hlen
  rw [hparse] at hnone
  have hnone' : pdesc = none := hnone
  rw [hnone']
  rfl

/-- The buffered valid pair of the spec's scenario. -/
def c6Collector : Collector :=
  ⟨[(7, ⟨["https://example.com/v/1", "2d,tech/fun,cool clip"], "alice"⟩)]⟩

/-- Witness for C6 at the spec's scenario: URL then
`"2d,tech/fun,cool clip"` yields two upserts (categories `tech` and
`fun`) sharing reference, date and description, and a success payload. -/
theorem valid_pair_upserted_witness :
    (process_messages (fun _ _ => "2024-06-08 12:00:00") "2024-06-10 12:00:00" 7
        c6Collector emptyDataset).1 =
      Payload.success "https://example.com/v/1" "2024-06-08 12:00:00" "tech/fun"
        "cool clip" ∧
    (process_messages (fun _ _ => "2024-06-08 12:00:00") "2024-06-10 12:00:00" 7
        c6Collector emptyDataset).2.2.2 =
      [⟨some 7, some "alice", some "tech", some "https://example.com/v/1",
          some "2024-06-08 12:00:00", some "cool clip", some "not uploaded"⟩,
       ⟨some 7, some "alice", some "fun", some "https://example.com/v/1",
          some "2024-06-08 12:00:00", some "cool clip", some "not uploaded"⟩] ∧
    (process_messages (fun _ _ => "2024-06-08 12:00:00") "2024-06-10 12:00:00" 7
        c6Collector emptyDataset).2.1 = ⟨[(7, ⟨[], "alice"⟩)]⟩ := by
  have h := valid_pair_upserted (fun _ _ => "2024-06-08 12:00:00")
    "2024-06-10 12:00:00" 7 "alice" "https://example.com/v/1"
    "2d,tech/fun,cool clip"
    ["https://example.com/v/1", "2d,tech/fun,cool clip"] c6Collector
    emptyDataset "2d" "tech/fun" (some "cool clip")
    (by rfl) (Or.inl rfl) (by decide) (by decide) (by decide)
    (by decide) (by decide) (by decide)
  exact ⟨h.1.trans (by decide), h.2.1.trans (by decide), h.2.2.1.trans (by decide)⟩

/-- C7: for every invalid buffered pair — two references, two
descriptors, or one reference with an unparseable descriptor (in either
position) — evaluation returns the error payload, stores nothing
(the dataset table is unchanged and no upsert is issued), and discards
the two buffered messages from the submitter's buffer. -/
theorem invalid_pair_rejected (ts : String → String → String) (now : String)
    (uid : Int) (un m1 m2 : String) (msgs : List String) (c : Collector)
    (db : DatasetTable)
    (hbuf : dictGet uid c.user_messages = some ⟨msgs, un⟩)
    (htake : msgs.take 2 = [m1, m2])
    (hbad : (is_url m1 = true ∧ is_url m2 = true) ∨
            (is_url m1 = false ∧ is_url m2 = false) ∨
            (is_url m1 = true ∧ is_url m2 = false ∧ bad_descriptor m2 = true) ∨
            (is_url m1 = false ∧ is_url m2 = true ∧ bad_descriptor m1 = true)) :
    (process_messages ts now uid c db).1 =
      Payload.failure "Invalid format. Need one URL and one 'date, category1/category2/..., description(optional: can be omitted)' message." ∧
    (process_messages ts now uid c db).2.2.1 = db ∧
    (process_messages ts now uid c db).2.2.2 = [] ∧
    (process_messages ts now uid c db).2.1 =
      ⟨dictSet uid ⟨msgs.drop 2, un⟩ c.user_messages⟩ := by
  have hcond : (truthy ((msgs.take 2).foldl (classify_message ts now)
        ⟨none, none, none, none⟩).url &&
      truthy ((msgs.take 2).foldl (classify_message ts now)
        ⟨none, none, none, none⟩).date &&
      truthy ((msgs.take 2).foldl (classify_message ts now)
        ⟨none, none, none, none⟩).categories &&
      truthy ((msgs.take 2).foldl (classify_message ts now)
        ⟨none, none, none, none⟩).description) = false := by
    rw [htake]
    simp only [List.foldl_cons, List.foldl_nil]
    rcases hbad with ⟨h1, h2⟩ | ⟨h1, h2⟩ | ⟨h1, h2, h3⟩ | ⟨h1, h2, h3⟩
    · rw [classify_url ts now _ m1 h1, classify_url ts now _ m2 h2]
      simp [truthy]
    · have hu : (classify_message ts now
          (classify_message ts now ⟨none, none, none, none⟩ m1) m2).url = none := by
        rw [classify_keeps_url ts now _ m2 h2, classify_keeps_url ts now _ m1 h1]
      rw [hu]
      simp [truthy]
    · rw [classify_url ts now _ m1 h1, classify_bad_descriptor ts now _ m2 h2 h3]
      simp [truthy]
    · rw [classify_bad_descriptor ts now _ m1 h1 h3, classify_url ts now _ m2 h2]
      simp [truthy]
  simp only [process_messages, hbuf, Option.getD_some, hcond,
    Bool.false_eq_true, if_false]
  exact ⟨trivial, trivial, trivial, trivial⟩

/-- The descriptor-only pair of the spec's scenario. -/
def c7Collector : Collector :=
  ⟨[(7, ⟨["2d,tech", "3d,fun"], "alice"⟩)]⟩

/-- Witness for C7 at the spec's scenario: two descriptors and no
reference fail, create no record, and the buffer is cleared. -/
theorem invalid_pair_rejected_witness :
    (process_messages (fun _ _ => "2024-06-08 12:00:00") "now" 7
        c7Collector emptyDataset).1 =
      Payload.failure "Invalid format. Need one URL and one 'date, category1/category2/..., description(optional: can be omitted)' message." ∧
    (process_messages (fun _ _ => "2024-06-08 12:00:00") "now" 7
        c7Collector emptyDataset).2.2.1 = emptyDataset ∧
    (process_messages (fun _ _ => "2024-06-08 12:00:00") "now" 7
        c7Collector emptyDataset).2.2.2 = [] ∧
    (process_messages (fun _ _ => "2024-06-08 12:00:00") "now" 7
        c7Collector emptyDataset).2.1 = ⟨[(7, ⟨[], "alice"⟩)]⟩ := by
  have h := invalid_pair_rejected (fun _ _ => "2024-06-08 12:00:00") "now" 7
    "alice" "2d,tech" "3d,fun" ["2d,tech", "3d,fun"] c7Collector emptyDataset
    (by rfl) (by rfl) (Or.inr (Or.inl (by constructor <;> decide)))
  exact ⟨h.1, h.2.1, h.2.2.1, h.2.2.2.trans (by decide)⟩

end DataCollector
